import Mathlib

/-! Collaborative markdown editor: the `models` package

A shallow embedding of `src/pkg/models` (Go) and the properties of its
data model: permissions, document versions, documents and sessions.

Conventions of the embedding

* A Go `string` is a Lean `String`; `==` on strings is `==` on `String`.
* `uuid.UUID` is `[16]byte`: a list of sixteen bytes, each a `Fin 256`.
* `time.Time` is an instant on one time line, counted in nanoseconds
  (`Int`); `t.After(u)` is `u < t`.  A `*time.Time` is an `Option Time`.
* The methods read the clock (`time.Now()`) and draw random identifiers
  (`uuid.New()`).  Each such read is an explicit argument of the embedded
  function, in the order in which the Go code performs the reads.
* A Go `int` is a 64-bit signed integer: an `Int` kept in range by
  `wrapInt` wherever the code does arithmetic on it.
* A method with a pointer receiver that mutates the receiver returns the
  new value of the receiver.
-/

namespace Models

set_option linter.dupNamespace false

/-! ## Basic types -/

/-- An instant (`time.Time`), in nanoseconds on a single time line. -/
abbrev Time := Int

/-- An identifier, `uuid.UUID`: sixteen bytes. -/
def UUID : Type := { bs : List (Fin 256) // bs.length = 16 }

instance : DecidableEq UUID :=
  inferInstanceAs (DecidableEq { bs : List (Fin 256) // bs.length = 16 })

/-- The zero identifier, `uuid.Nil`. -/
def UUID.Nil : UUID := ⟨List.replicate 16 0, rfl⟩

instance : Inhabited UUID := ⟨UUID.Nil⟩

/-- The byte `u[i]` of an identifier. -/
def UUID.byte (u : UUID) (i : Fin 16) : Fin 256 :=
  u.val.get ⟨i.val, by rw [u.property]; exact i.isLt⟩

/-! ## Go `int` -/

/-- The largest Go `int` on a 64-bit platform, `math.MaxInt64`. -/
def maxInt : Int := 9223372036854775807

/-- The smallest Go `int` on a 64-bit platform, `math.MinInt64`. -/
def minInt : Int := -9223372036854775808

/-- Two-complement wrap-around of a mathematical integer into a Go `int`. -/
def wrapInt (x : Int) : Int :=
  (x + 9223372036854775808) % 18446744073709551616 - 9223372036854775808

/-! ## The `github.com/google/uuid` library

`uuid.NewSHA1`, `uuid.NameSpaceOID` and `UUID.String` are library code the
package calls.  They are modelled here after the library (RFC 4122, version 5
identifiers over SHA-1, RFC 3174); bytes and 32-bit words are natural numbers
reduced modulo `256` and `2 ^ 32`. -/

/-- The identifier made of the first sixteen bytes of a list (`copy(uuid[:], s)`). -/
def UUID.ofBytes (l : List Nat) : UUID :=
  ⟨(List.range 16).map (fun i => Fin.ofNat (l.getD i 0)), by simp⟩

/-- The bytes of a Go string, `[]byte(s)`. -/
def goBytes (s : String) : List Nat :=
  (s.data.flatMap String.utf8EncodeChar).map UInt8.toNat

/-- Rotation of a 32-bit word to the left by `n` bits. -/
def rotl32 (n x : Nat) : Nat := ((x <<< n) ||| (x >>> (32 - n))) % 2 ^ 32

/-- The `width` bytes of `n`, most significant first. -/
def bigEndian (width n : Nat) : List Nat :=
  (List.range width).map (fun i => (n >>> (8 * (width - 1 - i))) % 256)

/-- SHA-1 padding: a `0x80` byte, zeros, and the bit length on eight bytes. -/
def sha1Pad (msg : List Nat) : List Nat :=
  msg ++ [0x80] ++ List.replicate ((119 - msg.length % 64) % 64) 0 ++
    bigEndian 8 (8 * msg.length)

/-- The sixteen big-endian words of a 64-byte block. -/
def sha1Words (block : List Nat) : List Nat :=
  (List.range 16).map (fun i =>
    block.getD (4 * i) 0 * 2 ^ 24 + block.getD (4 * i + 1) 0 * 2 ^ 16 +
      block.getD (4 * i + 2) 0 * 2 ^ 8 + block.getD (4 * i + 3) 0)

/-- The eighty-word message schedule of a block. -/
def sha1Schedule (w : List Nat) : List Nat :=
  (List.range 64).foldl (fun w i =>
    w ++ [rotl32 1
      (w.getD (i + 13) 0 ^^^ w.getD (i + 8) 0 ^^^ w.getD (i + 2) 0 ^^^ w.getD i 0)]) w

/-- The five chaining words of SHA-1. -/
structure Sha1State where
  a : Nat
  b : Nat
  c : Nat
  d : Nat
  e : Nat

/-- Round `i` of the SHA-1 compression function over the schedule `w`. -/
def sha1Round (w : List Nat) (s : Sha1State) (i : Nat) : Sha1State :=
  let f := if i < 20 then (s.b &&& s.c) ||| (((2 ^ 32 - 1) ^^^ s.b) &&& s.d)
    else if i < 40 then s.b ^^^ s.c ^^^ s.d
    else if i < 60 then (s.b &&& s.c) ||| (s.b &&& s.d) ||| (s.c &&& s.d)
    else s.b ^^^ s.c ^^^ s.d
  let k := if i < 20 then 0x5A827999 else if i < 40 then 0x6ED9EBA1
    else if i < 60 then 0x8F1BBCDC else 0xCA62C1D6
  { a := (rotl32 5 s.a + f + s.e + k + w.getD i 0) % 2 ^ 32
    b := s.a
    c := rotl32 30 s.b
    d := s.c
    e := s.d }

/-- The SHA-1 compression function on one block. -/
def sha1Block (h : Sha1State) (block : List Nat) : Sha1State :=
  let w := sha1Schedule (sha1Words block)
  let s := (List.range 80).foldl (sha1Round w) h
  { a := (h.a + s.a) % 2 ^ 32
    b := (h.b + s.b) % 2 ^ 32
    c := (h.c + s.c) % 2 ^ 32
    d := (h.d + s.d) % 2 ^ 32
    e := (h.e + s.e) % 2 ^ 32 }

/-- The twenty bytes of the SHA-1 digest of a message. -/
def sha1Sum (msg : List Nat) : List Nat :=
  let p := sha1Pad msg
  let h := (List.range (p.length / 64)).foldl
    (fun h i => sha1Block h ((p.drop (64 * i)).take 64))
    { a := 0x67452301, b := 0xEFCDAB89, c := 0x98BADCFE, d := 0x10325476, e := 0xC3D2E1F0 }
  bigEndian 4 h.a ++ bigEndian 4 h.b ++ bigEndian 4 h.c ++ bigEndian 4 h.d ++ bigEndian 4 h.e

/-- The name space `uuid.NameSpaceOID`, `6ba7b812-9dad-11d1-80b4-00c04fd430c8`. -/
def UUID.NameSpaceOID : UUID :=
  UUID.ofBytes
    [0x6b, 0xa7, 0xb8, 0x12, 0x9d, 0xad, 0x11, 0xd1, 0x80, 0xb4, 0x00, 0xc0, 0x4f, 0xd4, 0x30, 0xc8]

/-- `uuid.NewSHA1(space, data)`: the version 5 identifier of `data` in `space`. -/
def UUID.NewSHA1 (space : UUID) (data : List Nat) : UUID :=
  let s := sha1Sum (space.val.map Fin.val ++ data)
  UUID.ofBytes
    ((s.set 6 ((s.getD 6 0 &&& 0x0f) ||| 0x50)).set 8 ((s.getD 8 0 &&& 0x3f) ||| 0x80))

/-- A hexadecimal digit, lower case. -/
def hexDigit (n : Nat) : Char := "0123456789abcdef".data.getD n '0'

/-- `hex.Encode`: two digits a byte. -/
def hexEncode (bs : List (Fin 256)) : List Char :=
  bs.flatMap (fun b => [hexDigit (b.val / 16), hexDigit (b.val % 16)])

/-- `UUID.String`: the form `xxxxxxxx-xxxx-xxxx-xxxx-xxxxxxxxxxxx`. -/
def UUID.String (u : UUID) : String :=
  ⟨hexEncode (u.val.take 4) ++ ['-'] ++ hexEncode ((u.val.drop 4).take 2) ++ ['-'] ++
    hexEncode ((u.val.drop 6).take 2) ++ ['-'] ++ hexEncode ((u.val.drop 8).take 2) ++ ['-'] ++
    hexEncode (u.val.drop 10)⟩

/-! ## permission.go -/

/-- The access level of a permission: `type PermissionLevel string`. -/
abbrev PermissionLevel := String

/-- Read-only access. -/
def PermissionView : PermissionLevel := "VIEW"

/-- Editing access. -/
def PermissionEdit : PermissionLevel := "EDIT"

/-- Full control. -/
def PermissionAdmin : PermissionLevel := "ADMIN"

/-- Access control record of one user on one document. -/
structure Permission where
  ID : UUID
  DocumentID : UUID
  UserID : UUID
  Permission : PermissionLevel
  GrantedBy : UUID
  CreatedAt : Time
  UpdatedAt : Time
  ExpiresAt : Option Time
  deriving DecidableEq

/-- `NewPermission`: `now` is the value of `time.Now()`, `id` of `uuid.New()`. -/
def NewPermission (now : Time) (id : UUID) (documentID userID grantedBy : UUID)
    (level : PermissionLevel) : Permission :=
  { ID := id
    DocumentID := documentID
    UserID := userID
    Permission := level
    GrantedBy := grantedBy
    CreatedAt := now
    UpdatedAt := now
    ExpiresAt := none }

/-- `SetExpiration`: `now` is the value of `time.Now()`. -/
def Permission.SetExpiration (p : Models.Permission) (expiresAt : Time) (now : Time) :
    Models.Permission :=
  { p with ExpiresAt := some expiresAt, UpdatedAt := now }

/-- `IsExpired`: `now` is the value of `time.Now()`; `now.After(e)` is `e < now`. -/
def Permission.IsExpired (p : Models.Permission) (now : Time) : Bool :=
  match p.ExpiresAt with
  | none => false
  | some e => decide (e < now)

/-- `CanView`: `now` is the clock value read by the call of `IsExpired`. -/
def Permission.CanView (p : Models.Permission) (now : Time) : Bool :=
  !p.IsExpired now &&
    (p.Permission == PermissionView || p.Permission == PermissionEdit ||
      p.Permission == PermissionAdmin)

/-- `CanEdit`: `now` is the clock value read by the call of `IsExpired`. -/
def Permission.CanEdit (p : Models.Permission) (now : Time) : Bool :=
  !p.IsExpired now && (p.Permission == PermissionEdit || p.Permission == PermissionAdmin)

/-- `CanAdmin`: `now` is the clock value read by the call of `IsExpired`. -/
def Permission.CanAdmin (p : Models.Permission) (now : Time) : Bool :=
  !p.IsExpired now && p.Permission == PermissionAdmin

/-- `Upgrade`: `now` is the value of `time.Now()`. -/
def Permission.Upgrade (p : Models.Permission) (newLevel : PermissionLevel) (now : Time) :
    Models.Permission :=
  { p with Permission := newLevel, UpdatedAt := now }

/-- `Downgrade`: `now` is the value of `time.Now()`. -/
def Permission.Downgrade (p : Models.Permission) (newLevel : PermissionLevel) (now : Time) :
    Models.Permission :=
  { p with Permission := newLevel, UpdatedAt := now }

/-- `PermissionLevel.IsValid`. -/
def PermissionLevel.IsValid (pl : PermissionLevel) : Bool :=
  pl == PermissionView || pl == PermissionEdit || pl == PermissionAdmin

/-- A view permission granted at instant `0`, without expiration. -/
def freshViewPermission : Models.Permission :=
  NewPermission 0 UUID.Nil UUID.Nil UUID.Nil UUID.Nil PermissionView

/-- An edit permission granted at instant `0`, without expiration. -/
def freshEditPermission : Models.Permission :=
  NewPermission 0 UUID.Nil UUID.Nil UUID.Nil UUID.Nil PermissionEdit

/-- An admin permission granted at instant `0` that expires at instant `10`. -/
def expiringAdminPermission : Models.Permission :=
  (NewPermission 0 UUID.Nil UUID.Nil UUID.Nil UUID.Nil PermissionAdmin).SetExpiration 10 0

/-! ## document_version.go -/

/-- A snapshot of a document at one version. -/
structure DocumentVersion where
  ID : UUID
  DocumentID : UUID
  Version : Int
  Content : String
  AuthorID : UUID
  Operations : String
  Checksum : String
  CreatedAt : Time
  Message : String
  deriving DecidableEq

/-- `generateChecksum`: `uuid.NewSHA1(uuid.NameSpaceOID, []byte(content)).String()`. -/
def generateChecksum (content : String) : String :=
  (UUID.NewSHA1 UUID.NameSpaceOID (goBytes content)).String

/-- `NewDocumentVersion`: `id` is the value of `uuid.New()`, `now` of `time.Now()`. -/
def NewDocumentVersion (id : UUID) (now : Time) (documentID : UUID) (version : Int)
    (content : String) (authorID : UUID) : DocumentVersion :=
  { ID := id
    DocumentID := documentID
    Version := version
    Content := content
    AuthorID := authorID
    Operations := ""
    Checksum := generateChecksum content
    CreatedAt := now
    Message := "" }

/-- `NewDocumentVersionWithOps`: `id` is the value of `uuid.New()`, `now` of `time.Now()`. -/
def NewDocumentVersionWithOps (id : UUID) (now : Time) (documentID : UUID) (version : Int)
    (content : String) (authorID : UUID) (operations : String) : DocumentVersion :=
  { ID := id
    DocumentID := documentID
    Version := version
    Content := content
    AuthorID := authorID
    Operations := operations
    Checksum := generateChecksum content
    CreatedAt := now
    Message := "" }

/-- `SetMessage`. -/
def DocumentVersion.SetMessage (dv : DocumentVersion) (message : String) : DocumentVersion :=
  { dv with Message := message }

/-- `VerifyChecksum`; the receiver is not assigned to. -/
def DocumentVersion.VerifyChecksum (dv : DocumentVersion) : Bool :=
  dv.Checksum == generateChecksum dv.Content

/-- A call of a method of `DocumentVersion`, with its arguments. -/
inductive DocumentVersionCall where
  | SetMessage (message : String)
  | VerifyChecksum
  deriving DecidableEq

/-- The receiver after a method call. -/
def DocumentVersion.call (dv : DocumentVersion) : DocumentVersionCall → DocumentVersion
  | .SetMessage message => dv.SetMessage message
  | .VerifyChecksum => dv

/-- The receiver after a sequence of method calls, first call first. -/
def DocumentVersion.calls (dv : DocumentVersion) (cs : List DocumentVersionCall) :
    DocumentVersion :=
  cs.foldl DocumentVersion.call dv

/-! ## document.go -/

/-- A markdown document. -/
structure Document where
  ID : UUID
  Title : String
  Content : String
  OwnerID : UUID
  Version : Int
  CreatedAt : Time
  UpdatedAt : Time
  LastEditedBy : UUID
  Tags : List String
  IsPublic : Bool
  ShareToken : String
  DeletedAt : Option Time
  deriving DecidableEq

/-- `NewDocument`: `now` is the value of `time.Now()`, `id` of `uuid.New()`. -/
def NewDocument (now : Time) (id : UUID) (title content : String) (ownerID : UUID) : Document :=
  { ID := id
    Title := title
    Content := content
    OwnerID := ownerID
    Version := 0
    CreatedAt := now
    UpdatedAt := now
    LastEditedBy := ownerID
    Tags := []
    IsPublic := false
    ShareToken := ""
    DeletedAt := none }

/-- `GenerateShareToken`: `id` is the value of `uuid.New()`, `now` of `time.Now()`. -/
def Document.GenerateShareToken (d : Document) (id : UUID) (now : Time) : Document :=
  { d with ShareToken := id.String, UpdatedAt := now }

/-- `IncrementVersion`: `d.Version++` on a Go `int` wraps around; `now` is `time.Now()`. -/
def Document.IncrementVersion (d : Document) (editorID : UUID) (now : Time) : Document :=
  { d with Version := wrapInt (d.Version + 1), LastEditedBy := editorID, UpdatedAt := now }

/-- `SoftDelete`: `now` is the value of `time.Now()`. -/
def Document.SoftDelete (d : Document) (now : Time) : Document :=
  { d with DeletedAt := some now, UpdatedAt := now }

/-- `IsDeleted`: `d.DeletedAt != nil`; the receiver is not assigned to. -/
def Document.IsDeleted (d : Document) : Bool :=
  d.DeletedAt.isSome

/-- `MakePublic`: `id` and `now1` are read by `GenerateShareToken` when it is called,
`now2` is the value of the last `time.Now()`. -/
def Document.MakePublic (d : Document) (id : UUID) (now1 now2 : Time) : Document :=
  let d1 := { d with IsPublic := true }
  let d2 := if d1.ShareToken == "" then d1.GenerateShareToken id now1 else d1
  { d2 with UpdatedAt := now2 }

/-- `MakePrivate`: `now` is the value of `time.Now()`. -/
def Document.MakePrivate (d : Document) (now : Time) : Document :=
  { d with IsPublic := false, UpdatedAt := now }

/-- A call of a method of `Document`, with its arguments and the values it reads
from the clock and from `uuid.New()`. -/
inductive DocumentCall where
  | GenerateShareToken (id : UUID) (now : Time)
  | IncrementVersion (editorID : UUID) (now : Time)
  | SoftDelete (now : Time)
  | IsDeleted
  | MakePublic (id : UUID) (now1 now2 : Time)
  | MakePrivate (now : Time)
  deriving DecidableEq

/-- The receiver after a method call. -/
def Document.call (d : Document) : DocumentCall → Document
  | .GenerateShareToken id now => d.GenerateShareToken id now
  | .IncrementVersion editorID now => d.IncrementVersion editorID now
  | .SoftDelete now => d.SoftDelete now
  | .IsDeleted => d
  | .MakePublic id now1 now2 => d.MakePublic id now1 now2
  | .MakePrivate now => d.MakePrivate now

/-- The receiver after a sequence of method calls, first call first. -/
def Document.calls (d : Document) (cs : List DocumentCall) : Document :=
  cs.foldl Document.call d

/-- The editor of a call of `IncrementVersion`; `none` for a call of another method. -/
def editorOf : DocumentCall → Option UUID
  | .IncrementVersion editorID _ => some editorID
  | _ => none

/-- The editors of the `IncrementVersion` calls of a sequence, in the order of the calls. -/
def editors (cs : List DocumentCall) : List UUID :=
  cs.filterMap editorOf

/-- A document whose version counter holds the largest Go `int`. -/
def documentAtMaxVersion : Document :=
  { NewDocument 0 UUID.Nil "t" "hello" UUID.Nil with Version := 9223372036854775807 }

/-! ## session.go -/

/-- A length of time, `time.Duration`: nanoseconds in a 64-bit signed integer. -/
abbrev Duration := Int

/-- `time.Since(t)`, that is `time.Now().Sub(t)`: the difference, saturated to the range
of `time.Duration`; `now` is the value of `time.Now()`. -/
def Since (t : Time) (now : Time) : Duration :=
  max minInt (min maxInt (now - t))

/-- An editing session. -/
structure Session where
  ID : String
  UserID : UUID
  DocumentID : UUID
  CursorPosition : Int
  SelectionStart : Int
  SelectionEnd : Int
  Color : String
  LastActivity : Time
  ConnectionID : String
  IsActive : Bool
  CreatedAt : Time
  deriving DecidableEq

/-- The palette of `generateUserColor`. -/
def colors : List String :=
  ["#FF6B6B", "#4ECDC4", "#45B7D1", "#FFA07A", "#98D8C8",
   "#F7DC6F", "#BB8FCE", "#85C1E2", "#F8B88B", "#AAB7B8"]

/-- `generateUserColor`: `colors[int(userID[0]) % len(colors)]`; `none` stands for the
run-time panic of an index out of range. -/
def generateUserColor (userID : UUID) : Option String :=
  colors[(userID.byte 0).val % colors.length]?

/-- `NewSession`: `now` is the value of `time.Now()`, `id` of `uuid.New()`; `none` when
`generateUserColor` panics. -/
def NewSession (now : Time) (id : UUID) (userID documentID : UUID) (connectionID : String) :
    Option Session :=
  (generateUserColor userID).map fun color =>
    { ID := id.String
      UserID := userID
      DocumentID := documentID
      CursorPosition := 0
      SelectionStart := 0
      SelectionEnd := 0
      Color := color
      LastActivity := now
      ConnectionID := connectionID
      IsActive := true
      CreatedAt := now }

/-- `UpdateCursor`: `now` is the value of `time.Now()`. -/
def Session.UpdateCursor (s : Session) (position : Int) (now : Time) : Session :=
  { s with CursorPosition := position, LastActivity := now }

/-- `UpdateSelection`: `now` is the value of `time.Now()`. -/
def Session.UpdateSelection (s : Session) (start stop : Int) (now : Time) : Session :=
  { s with SelectionStart := start, SelectionEnd := stop, LastActivity := now }

/-- `UpdateActivity`: `now` is the value of `time.Now()`. -/
def Session.UpdateActivity (s : Session) (now : Time) : Session :=
  { s with LastActivity := now }

/-- `Deactivate`: `now` is the value of `time.Now()`. -/
def Session.Deactivate (s : Session) (now : Time) : Session :=
  { s with IsActive := false, LastActivity := now }

/-- `IsExpired`: `time.Since(s.LastActivity) > timeout`; `now` is the value of `time.Now()`. -/
def Session.IsExpired (s : Session) (timeout : Duration) (now : Time) : Bool :=
  decide (timeout < Since s.LastActivity now)

/-- A call of a method of `Session`, with its arguments and the clock value it reads. -/
inductive SessionCall where
  | UpdateCursor (position : Int) (now : Time)
  | UpdateSelection (start stop : Int) (now : Time)
  | UpdateActivity (now : Time)
  | Deactivate (now : Time)
  | IsExpired (timeout : Duration) (now : Time)
  deriving DecidableEq

/-- The receiver after a method call; `IsExpired` does not assign to it. -/
def Session.call (s : Session) : SessionCall → Session
  | .UpdateCursor position now => s.UpdateCursor position now
  | .UpdateSelection start stop now => s.UpdateSelection start stop now
  | .UpdateActivity now => s.UpdateActivity now
  | .Deactivate now => s.Deactivate now
  | .IsExpired _ _ => s

/-- The receiver after a sequence of method calls, first call first. -/
def Session.calls (s : Session) (cs : List SessionCall) : Session :=
  cs.foldl Session.call s

/-- The argument of a call of `UpdateCursor`; `none` for a call of another method. -/
def cursorOf : SessionCall → Option Int
  | .UpdateCursor position _ => some position
  | _ => none

/-- The arguments of a call of `UpdateSelection`; `none` for a call of another method. -/
def selectionOf : SessionCall → Option (Int × Int)
  | .UpdateSelection start stop _ => some (start, stop)
  | _ => none

/-- The arguments of the `UpdateCursor` calls of a sequence, in the order of the calls. -/
def cursors (cs : List SessionCall) : List Int :=
  cs.filterMap cursorOf

/-- The arguments of the `UpdateSelection` calls of a sequence, in the order of the calls. -/
def selections (cs : List SessionCall) : List (Int × Int) :=
  cs.filterMap selectionOf

/-- The session `NewSession` returns at instant `0` for the zero identifiers. -/
def sessionAtZero : Session :=
  { ID := UUID.Nil.String
    UserID := UUID.Nil
    DocumentID := UUID.Nil
    CursorPosition := 0
    SelectionStart := 0
    SelectionEnd := 0
    Color := "#FF6B6B"
    LastActivity := 0
    ConnectionID := "conn"
    IsActive := true
    CreatedAt := 0 }

/-- One second, `time.Second`, in nanoseconds. -/
def Second : Duration := 1000000000

/-! ## Sequences of calls on permissions and documents -/

/-- A call of a method of `Permission`, with its arguments and the clock value it reads. -/
inductive PermissionCall where
  | SetExpiration (expiresAt : Time) (now : Time)
  | IsExpired (now : Time)
  | CanView (now : Time)
  | CanEdit (now : Time)
  | CanAdmin (now : Time)
  | Upgrade (newLevel : PermissionLevel) (now : Time)
  | Downgrade (newLevel : PermissionLevel) (now : Time)
  deriving DecidableEq

/-- The receiver after a method call; the four checks do not assign to it. -/
def Permission.call (p : Models.Permission) : PermissionCall → Models.Permission
  | .SetExpiration expiresAt now => p.SetExpiration expiresAt now
  | .IsExpired _ => p
  | .CanView _ => p
  | .CanEdit _ => p
  | .CanAdmin _ => p
  | .Upgrade newLevel now => p.Upgrade newLevel now
  | .Downgrade newLevel now => p.Downgrade newLevel now

/-- The receiver after a sequence of method calls, first call first. -/
def Permission.calls (p : Models.Permission) (cs : List PermissionCall) : Models.Permission :=
  cs.foldl Permission.call p

/-- The level argument of a call of `Upgrade` or `Downgrade`; `none` for another method. -/
def levelOf : PermissionCall → Option PermissionLevel
  | .Upgrade newLevel _ => some newLevel
  | .Downgrade newLevel _ => some newLevel
  | _ => none

/-- The level arguments of the `Upgrade` and `Downgrade` calls of a sequence, in the order
of the calls. -/
def levels (cs : List PermissionCall) : List PermissionLevel :=
  cs.filterMap levelOf

/-- An admin permission granted at instant `0`, without expiration. -/
def freshAdminPermission : Models.Permission :=
  NewPermission 0 UUID.Nil UUID.Nil UUID.Nil UUID.Nil PermissionAdmin

/-- A new document, soft-deleted at instant `5`. -/
def deletedDocument : Document :=
  (NewDocument 0 UUID.Nil "t" "hello" UUID.Nil).SoftDelete 5

/-! ## Properties of permissions -/

theorem Permission.isExpired_iff (p : Models.Permission) (now : Time) :
    p.IsExpired now = true ↔ ∃ e, p.ExpiresAt = some e ∧ e < now := by
  unfold Permission.IsExpired
  cases h : p.ExpiresAt with
  | none => simp
  | some e => simp

theorem Permission.isExpired_of_lt (p : Models.Permission) (e now : Time)
    (hset : p.ExpiresAt = some e) (hlt : e < now) : p.IsExpired now = true :=
  (Permission.isExpired_iff p now).mpr ⟨e, hset, hlt⟩

/-- C2: a permission whose expiration is set grants nothing at any instant strictly after
the expiration: `CanView`, `CanEdit` and `CanAdmin`, each called at its own instant after
`ExpiresAt`, return `false`, whatever the level string. -/
theorem expired_permission_grants_no_access (p : Models.Permission) (e tView tEdit tAdmin : Time)
    (hset : p.ExpiresAt = some e) (hView : e < tView) (hEdit : e < tEdit)
    (hAdmin : e < tAdmin) :
    p.CanView tView = false ∧ p.CanEdit tEdit = false ∧ p.CanAdmin tAdmin = false := by
  refine ⟨?_, ?_, ?_⟩
  · simp [Permission.CanView, Permission.isExpired_of_lt p e tView hset hView]
  · simp [Permission.CanEdit, Permission.isExpired_of_lt p e tEdit hset hEdit]
  · simp [Permission.CanAdmin, Permission.isExpired_of_lt p e tAdmin hset hAdmin]

theorem expired_permission_grants_no_access_witness :
    expiringAdminPermission.Permission = PermissionAdmin ∧
      expiringAdminPermission.ExpiresAt = some 10 ∧
      expiringAdminPermission.CanView 11 = false ∧
      expiringAdminPermission.CanEdit 12 = false ∧
      expiringAdminPermission.CanAdmin 13 = false :=
  ⟨rfl, rfl, expired_permission_grants_no_access expiringAdminPermission 10 11 12 13 rfl
    (by decide) (by decide) (by decide)⟩

/-- C3: at every instant `CanEdit` is true exactly when the permission is not expired
(no expiration, or the instant is not after it) and its level is `EDIT` or `ADMIN`; a
permission of level `VIEW` never allows editing, whatever its expiration. -/
theorem canEdit_iff_unexpired_edit_or_admin (p : Models.Permission) (now : Time) :
    (p.CanEdit now = true ↔
      (p.IsExpired now = false ∧
        (p.Permission = PermissionEdit ∨ p.Permission = PermissionAdmin))) ∧
    (p.IsExpired now = false ↔ ∀ e, p.ExpiresAt = some e → now ≤ e) ∧
    (p.Permission = PermissionView → p.CanEdit now = false) := by
  refine ⟨?_, ?_, ?_⟩
  · simp [Permission.CanEdit]
  · rw [← Bool.not_eq_true, Permission.isExpired_iff]
    constructor
    · intro h e he
      exact not_lt.mp fun hlt => h ⟨e, he, hlt⟩
    · rintro h ⟨e, he, hlt⟩
      exact absurd hlt (not_lt.mpr (h e he))
  · intro hv
    simp [Permission.CanEdit, hv, PermissionView, PermissionEdit, PermissionAdmin]

theorem canEdit_iff_unexpired_edit_or_admin_witness :
    freshEditPermission.CanEdit 5 = true ∧ freshViewPermission.CanEdit 5 = false ∧
      expiringAdminPermission.CanEdit 10 = true ∧
      expiringAdminPermission.CanEdit 11 = false :=
  ⟨(canEdit_iff_unexpired_edit_or_admin freshEditPermission 5).1.mpr ⟨rfl, Or.inl rfl⟩,
    (canEdit_iff_unexpired_edit_or_admin freshViewPermission 5).2.2 rfl,
    (canEdit_iff_unexpired_edit_or_admin expiringAdminPermission 10).1.mpr
      ⟨by decide, Or.inr rfl⟩,
    by decide⟩

/-- C4: at one fixed instant `CanAdmin` implies `CanEdit` and `CanEdit` implies `CanView`;
both inclusions are strict: an unexpired `VIEW` permission has `CanView` without `CanEdit`,
an unexpired `EDIT` permission has `CanEdit` without `CanAdmin`, and such permissions exist
at every instant. -/
theorem permission_levels_ordered (p : Models.Permission) (now : Time) :
    (p.CanAdmin now = true → p.CanEdit now = true) ∧
    (p.CanEdit now = true → p.CanView now = true) ∧
    (p.Permission = PermissionView → p.IsExpired now = false →
      p.CanView now = true ∧ p.CanEdit now = false) ∧
    (p.Permission = PermissionEdit → p.IsExpired now = false →
      p.CanEdit now = true ∧ p.CanAdmin now = false) ∧
    (∃ q : Models.Permission, q.CanView now = true ∧ q.CanEdit now = false) ∧
    (∃ q : Models.Permission, q.CanEdit now = true ∧ q.CanAdmin now = false) := by
  refine ⟨?_, ?_, ?_, ?_, ?_, ?_⟩
  · simp only [Permission.CanAdmin, Permission.CanEdit, Bool.and_eq_true, Bool.or_eq_true]
    exact fun h => ⟨h.1, Or.inr h.2⟩
  · simp only [Permission.CanEdit, Permission.CanView, Bool.and_eq_true, Bool.or_eq_true]
    rintro ⟨h, hl | hl⟩
    · exact ⟨h, Or.inl (Or.inr hl)⟩
    · exact ⟨h, Or.inr hl⟩
  · intro hv hx
    simp [Permission.CanView, Permission.CanEdit, hv, hx, PermissionView, PermissionEdit,
      PermissionAdmin]
  · intro hv hx
    simp [Permission.CanEdit, Permission.CanAdmin, hv, hx, PermissionEdit, PermissionAdmin]
  · refine ⟨freshViewPermission, ?_⟩
    simp [Permission.CanView, Permission.CanEdit, Permission.IsExpired, NewPermission,
      freshViewPermission,
      PermissionView, PermissionEdit, PermissionAdmin]
  · refine ⟨freshEditPermission, ?_⟩
    simp [Permission.CanEdit, Permission.CanAdmin, Permission.IsExpired, NewPermission,
      freshEditPermission,
      PermissionEdit, PermissionAdmin]

theorem permission_levels_ordered_witness :
    freshViewPermission.CanView 7 = true ∧ freshViewPermission.CanEdit 7 = false ∧
      freshEditPermission.CanEdit 7 = true ∧ freshEditPermission.CanAdmin 7 = false :=
  ⟨((permission_levels_ordered freshViewPermission 7).2.2.1 rfl rfl).1,
    ((permission_levels_ordered freshViewPermission 7).2.2.1 rfl rfl).2,
    ((permission_levels_ordered freshEditPermission 7).2.2.2.1 rfl rfl).1,
    ((permission_levels_ordered freshEditPermission 7).2.2.2.1 rfl rfl).2⟩

/-! ## Properties of document versions -/

theorem DocumentVersion.calls_empty (dv : DocumentVersion) : dv.calls [] = dv := rfl

theorem DocumentVersion.calls_step (dv : DocumentVersion) (c : DocumentVersionCall)
    (cs : List DocumentVersionCall) : dv.calls (c :: cs) = (dv.call c).calls cs := rfl

/-- A method call keeps every field but `Message`. -/
theorem DocumentVersion.call_frame (dv : DocumentVersion) (c : DocumentVersionCall) :
    (dv.call c).ID = dv.ID ∧ (dv.call c).DocumentID = dv.DocumentID ∧
      (dv.call c).Version = dv.Version ∧ (dv.call c).Content = dv.Content ∧
      (dv.call c).AuthorID = dv.AuthorID ∧ (dv.call c).Operations = dv.Operations ∧
      (dv.call c).Checksum = dv.Checksum ∧ (dv.call c).CreatedAt = dv.CreatedAt := by
  cases c <;> simp [DocumentVersion.call, DocumentVersion.SetMessage]

/-- A sequence of method calls keeps every field but `Message`. -/
theorem DocumentVersion.calls_frame (cs : List DocumentVersionCall) (dv : DocumentVersion) :
    (dv.calls cs).ID = dv.ID ∧ (dv.calls cs).DocumentID = dv.DocumentID ∧
      (dv.calls cs).Version = dv.Version ∧ (dv.calls cs).Content = dv.Content ∧
      (dv.calls cs).AuthorID = dv.AuthorID ∧ (dv.calls cs).Operations = dv.Operations ∧
      (dv.calls cs).Checksum = dv.Checksum ∧ (dv.calls cs).CreatedAt = dv.CreatedAt := by
  induction cs generalizing dv with
  | nil => simp [DocumentVersion.calls_empty]
  | cons c cs ih =>
    rw [DocumentVersion.calls_step]
    obtain ⟨h1, h2, h3, h4, h5, h6, h7, h8⟩ := ih (dv.call c)
    obtain ⟨g1, g2, g3, g4, g5, g6, g7, g8⟩ := DocumentVersion.call_frame dv c
    exact ⟨h1.trans g1, h2.trans g2, h3.trans g3, h4.trans g4, h5.trans g5, h6.trans g6,
      h7.trans g7, h8.trans g8⟩

/-- Setting messages one after the other keeps the content and the checksum. -/
theorem DocumentVersion.foldl_setMessage (msgs : List String) (dv : DocumentVersion) :
    (msgs.foldl DocumentVersion.SetMessage dv).Content = dv.Content ∧
      (msgs.foldl DocumentVersion.SetMessage dv).Checksum = dv.Checksum := by
  induction msgs generalizing dv with
  | nil => exact ⟨rfl, rfl⟩
  | cons m msgs ih =>
    rw [List.foldl_cons]
    exact ⟨(ih (dv.SetMessage m)).1, (ih (dv.SetMessage m)).2⟩

/-- Verification looks at the content and the checksum only. -/
theorem DocumentVersion.verifyChecksum_congr (dv dw : DocumentVersion)
    (hc : dv.Content = dw.Content) (hk : dv.Checksum = dw.Checksum) :
    dv.VerifyChecksum = dw.VerifyChecksum := by
  simp [DocumentVersion.VerifyChecksum, hc, hk]

/-- The library model agrees with a version 5 identifier computed independently. -/
theorem generateChecksum_hello :
    generateChecksum "hello" = "4d71d03f-f19b-5d9e-8523-9628ba18063c" := by
  set_option maxRecDepth 100000 in decide

/-- C5: the record returned by `NewDocumentVersion` or `NewDocumentVersionWithOps`
passes `VerifyChecksum`, for every document id, version number, content, author and
operations string (and every identifier and instant the constructor draws), and it
still passes after any number of `SetMessage` calls. -/
theorem new_version_verifies (id documentID authorID : UUID) (now : Time) (version : Int)
    (content operations : String) (msgs : List String) :
    (NewDocumentVersion id now documentID version content authorID).VerifyChecksum = true ∧
    (NewDocumentVersionWithOps id now documentID version content authorID
      operations).VerifyChecksum = true ∧
    (msgs.foldl DocumentVersion.SetMessage
      (NewDocumentVersion id now documentID version content authorID)).VerifyChecksum = true ∧
    (msgs.foldl DocumentVersion.SetMessage
      (NewDocumentVersionWithOps id now documentID version content authorID
        operations)).VerifyChecksum = true := by
  have h1 : (NewDocumentVersion id now documentID version content authorID).VerifyChecksum
      = true := by
    simp [DocumentVersion.VerifyChecksum, NewDocumentVersion]
  have h2 : (NewDocumentVersionWithOps id now documentID version content authorID
      operations).VerifyChecksum = true := by
    simp [DocumentVersion.VerifyChecksum, NewDocumentVersionWithOps]
  refine ⟨h1, h2, ?_, ?_⟩
  · rw [DocumentVersion.verifyChecksum_congr _ _
      (DocumentVersion.foldl_setMessage msgs _).1 (DocumentVersion.foldl_setMessage msgs _).2]
    exact h1
  · rw [DocumentVersion.verifyChecksum_congr _ _
      (DocumentVersion.foldl_setMessage msgs _).1 (DocumentVersion.foldl_setMessage msgs _).2]
    exact h2

/-- C6: the checksum of a record built by either constructor is `generateChecksum` of the
content, so two records built from one content carry the same checksum whatever their
record id, creation instant, document id, version number, author and operations string;
and `VerifyChecksum` is true exactly when the stored checksum equals `generateChecksum`
of the current content. -/
theorem checksum_recomputable_from_content (content : String)
    (id id2 documentID documentID2 authorID authorID2 : UUID) (now now2 : Time)
    (version version2 : Int) (operations operations2 : String) (dv : DocumentVersion) :
    (NewDocumentVersion id now documentID version content authorID).Checksum =
      generateChecksum content ∧
    (NewDocumentVersionWithOps id now documentID version content authorID operations).Checksum =
      generateChecksum content ∧
    (NewDocumentVersion id now documentID version content authorID).Checksum =
      (NewDocumentVersion id2 now2 documentID2 version2 content authorID2).Checksum ∧
    (NewDocumentVersion id now documentID version content authorID).Checksum =
      (NewDocumentVersionWithOps id2 now2 documentID2 version2 content authorID2
        operations2).Checksum ∧
    (NewDocumentVersionWithOps id now documentID version content authorID operations).Checksum =
      (NewDocumentVersionWithOps id2 now2 documentID2 version2 content authorID2
        operations2).Checksum ∧
    (dv.VerifyChecksum = true ↔ dv.Checksum = generateChecksum dv.Content) := by
  refine ⟨rfl, rfl, rfl, rfl, rfl, ?_⟩
  simp [DocumentVersion.VerifyChecksum]

/-- C9, as the code has it: the version number of a record built by either constructor
is the number the caller passed, unchecked; so the record has `Version >= 1` exactly when
the caller passed a number `>= 1`. -/
theorem new_version_keeps_passed_number (id documentID authorID : UUID) (now : Time)
    (version : Int) (content operations : String) :
    (NewDocumentVersion id now documentID version content authorID).Version = version ∧
    (NewDocumentVersionWithOps id now documentID version content authorID
      operations).Version = version ∧
    (1 ≤ (NewDocumentVersion id now documentID version content authorID).Version ↔
      1 ≤ version) ∧
    (1 ≤ (NewDocumentVersionWithOps id now documentID version content authorID
      operations).Version ↔ 1 ≤ version) :=
  ⟨rfl, rfl, Iff.rfl, Iff.rfl⟩

/-- C9 fails as stated: the constructors build a record numbered `0`, and one numbered
`-3`, when the caller passes these numbers. -/
theorem new_version_numbered_zero :
    (NewDocumentVersion UUID.Nil 0 UUID.Nil 0 "hello" UUID.Nil).Version = 0 ∧
      ¬ (1 ≤ (NewDocumentVersion UUID.Nil 0 UUID.Nil 0 "hello" UUID.Nil).Version) ∧
      (NewDocumentVersionWithOps UUID.Nil 0 UUID.Nil (-3) "hello" UUID.Nil "[]").Version = -3 ∧
      ¬ (1 ≤ (NewDocumentVersionWithOps UUID.Nil 0 UUID.Nil (-3) "hello" UUID.Nil
        "[]").Version) := by
  refine ⟨rfl, ?_, rfl, ?_⟩ <;> simp [NewDocumentVersion, NewDocumentVersionWithOps]

/-- C10, as the code has it: `SetMessage` sets `Message` to its argument and keeps every
other field; `VerifyChecksum` keeps the whole record; so after any sequence of method
calls a record differs from the one that was created in `Message` at most. -/
theorem version_methods_keep_all_but_message (dv : DocumentVersion) (message : String)
    (cs : List DocumentVersionCall) :
    ((dv.SetMessage message).Message = message ∧
      (dv.SetMessage message).ID = dv.ID ∧
      (dv.SetMessage message).DocumentID = dv.DocumentID ∧
      (dv.SetMessage message).Version = dv.Version ∧
      (dv.SetMessage message).Content = dv.Content ∧
      (dv.SetMessage message).AuthorID = dv.AuthorID ∧
      (dv.SetMessage message).Operations = dv.Operations ∧
      (dv.SetMessage message).Checksum = dv.Checksum ∧
      (dv.SetMessage message).CreatedAt = dv.CreatedAt) ∧
    dv.call DocumentVersionCall.VerifyChecksum = dv ∧
    dv.calls cs = { dv with Message := (dv.calls cs).Message } := by
  refine ⟨⟨rfl, rfl, rfl, rfl, rfl, rfl, rfl, rfl, rfl⟩, rfl, ?_⟩
  obtain ⟨h1, h2, h3, h4, h5, h6, h7, h8⟩ := DocumentVersion.calls_frame cs dv
  cases hd : dv.calls cs
  cases dv
  simp_all

/-- C10 fails as stated: `SetMessage` changes the `Message` field of a record created by
`NewDocumentVersion`. -/
theorem setMessage_changes_message :
    (NewDocumentVersion UUID.Nil 0 UUID.Nil 1 "hello" UUID.Nil).Message = "" ∧
      ((NewDocumentVersion UUID.Nil 0 UUID.Nil 1 "hello" UUID.Nil).SetMessage
        "first draft").Message = "first draft" ∧
      (NewDocumentVersion UUID.Nil 0 UUID.Nil 1 "hello" UUID.Nil).SetMessage "first draft" ≠
        NewDocumentVersion UUID.Nil 0 UUID.Nil 1 "hello" UUID.Nil := by
  refine ⟨rfl, rfl, ?_⟩
  intro h
  have hm := congrArg DocumentVersion.Message h
  simp [DocumentVersion.SetMessage, NewDocumentVersion] at hm

/-! ## Properties of documents -/

theorem wrapInt_of_mem_range (x : Int) (hlo : minInt ≤ x) (hhi : x ≤ maxInt) :
    wrapInt x = x := by
  unfold minInt at hlo
  unfold maxInt at hhi
  unfold wrapInt
  omega

theorem wrapInt_idem (x : Int) : wrapInt (wrapInt x) = wrapInt x := by
  unfold wrapInt
  omega

theorem wrapInt_add_wrapInt (x y : Int) : wrapInt (wrapInt x + y) = wrapInt (x + y) := by
  unfold wrapInt
  omega

theorem Document.calls_none (d : Document) : d.calls [] = d := rfl

theorem Document.calls_first (d : Document) (c : DocumentCall) (cs : List DocumentCall) :
    d.calls (c :: cs) = (d.call c).calls cs := rfl

/-- The version after a sequence of calls on a document whose version is a Go `int`. -/
theorem Document.calls_version (cs : List DocumentCall) (d : Document)
    (hd : wrapInt d.Version = d.Version) :
    (d.calls cs).Version = wrapInt (d.Version + ((editors cs).length : Int)) := by
  induction cs generalizing d with
  | nil => simp [Document.calls_none, editors, hd]
  | cons c cs ih =>
    rw [Document.calls_first]
    cases c with
    | IncrementVersion e t =>
      have hstep : (d.call (DocumentCall.IncrementVersion e t)).Version
          = wrapInt (d.Version + 1) := rfl
      rw [ih _ (by rw [hstep, wrapInt_idem]), hstep, wrapInt_add_wrapInt]
      have hlen : ((editors (DocumentCall.IncrementVersion e t :: cs)).length : Int)
          = 1 + ((editors cs).length : Int) := by
        simp [editors, editorOf, List.filterMap_cons]
        omega
      rw [hlen, add_assoc]
    | MakePublic id t1 t2 =>
      have hstep : (d.call (DocumentCall.MakePublic id t1 t2)).Version = d.Version := by
        simp only [Document.call, Document.MakePublic, Document.GenerateShareToken]
        split <;> rfl
      rw [ih _ (by rw [hstep, hd]), hstep]
      simp [editors, editorOf, List.filterMap_cons]
    | GenerateShareToken id t =>
      have hstep : (d.call (DocumentCall.GenerateShareToken id t)).Version = d.Version := rfl
      rw [ih _ (by rw [hstep, hd]), hstep]
      simp [editors, editorOf, List.filterMap_cons]
    | SoftDelete t =>
      have hstep : (d.call (DocumentCall.SoftDelete t)).Version = d.Version := rfl
      rw [ih _ (by rw [hstep, hd]), hstep]
      simp [editors, editorOf, List.filterMap_cons]
    | IsDeleted =>
      have hstep : (d.call DocumentCall.IsDeleted).Version = d.Version := rfl
      rw [ih _ (by rw [hstep, hd]), hstep]
      simp [editors, editorOf, List.filterMap_cons]
    | MakePrivate t =>
      have hstep : (d.call (DocumentCall.MakePrivate t)).Version = d.Version := rfl
      rw [ih _ (by rw [hstep, hd]), hstep]
      simp [editors, editorOf, List.filterMap_cons]

/-- The last editor after a sequence of calls: the editor of the last `IncrementVersion`
call, or the previous last editor when there is no such call. -/
theorem Document.calls_lastEditedBy (cs : List DocumentCall) (d : Document) :
    (d.calls cs).LastEditedBy = (editors cs).getLast?.getD d.LastEditedBy := by
  induction cs generalizing d with
  | nil => rfl
  | cons c cs ih =>
    rw [Document.calls_first, ih]
    cases c with
    | IncrementVersion e t =>
      have hed : editors (DocumentCall.IncrementVersion e t :: cs) = e :: editors cs := by
        simp [editors, editorOf, List.filterMap_cons]
      rw [hed, List.getLast?_cons]
      rfl
    | MakePublic id t1 t2 =>
      have hstep : (d.call (DocumentCall.MakePublic id t1 t2)).LastEditedBy
          = d.LastEditedBy := by
        simp only [Document.call, Document.MakePublic, Document.GenerateShareToken]
        split <;> rfl
      rw [hstep]
      simp [editors, editorOf, List.filterMap_cons]
    | GenerateShareToken id t => simp [editors, editorOf, List.filterMap_cons]; rfl
    | SoftDelete t => simp [editors, editorOf, List.filterMap_cons]; rfl
    | IsDeleted => simp [editors, editorOf, List.filterMap_cons]; rfl
    | MakePrivate t => simp [editors, editorOf, List.filterMap_cons]; rfl

/-- C7: `NewDocument` returns a document at version `0`; after any sequence of method
calls of which `N` are `IncrementVersion` calls, with any editor ids and interleaved with
any other `Document` methods, the version is `N` as a Go `int`, that is `N` itself for
every count `N` a Go `int` can hold (`N <= 2^63 - 1`), and the last editor is the editor
of the last `IncrementVersion` call (the owner when there is none). -/
theorem version_counts_increments (now : Time) (id ownerID : UUID) (title content : String)
    (cs : List DocumentCall) :
    (NewDocument now id title content ownerID).Version = 0 ∧
    ((NewDocument now id title content ownerID).calls cs).Version =
      wrapInt ((editors cs).length : Int) ∧
    (((editors cs).length : Int) ≤ maxInt →
      ((NewDocument now id title content ownerID).calls cs).Version = (editors cs).length) ∧
    (∀ e, (editors cs).getLast? = some e →
      ((NewDocument now id title content ownerID).calls cs).LastEditedBy = e) ∧
    ((editors cs).getLast? = none →
      ((NewDocument now id title content ownerID).calls cs).LastEditedBy = ownerID) := by
  have h0 : (NewDocument now id title content ownerID).Version = 0 := rfl
  have hv : ((NewDocument now id title content ownerID).calls cs).Version =
      wrapInt ((editors cs).length : Int) := by
    rw [Document.calls_version cs _ (by rw [h0]; decide), h0, zero_add]
  refine ⟨rfl, hv, ?_, ?_, ?_⟩
  · intro hN
    rw [hv]
    exact wrapInt_of_mem_range _ (by unfold minInt; omega) hN
  · intro e he
    rw [Document.calls_lastEditedBy, he]
    rfl
  · intro he
    rw [Document.calls_lastEditedBy, he]
    rfl

theorem version_counts_increments_witness :
    ((NewDocument 0 UUID.Nil "t" "hello" UUID.Nil).calls
        [DocumentCall.IncrementVersion UUID.NameSpaceOID 1, DocumentCall.MakePublic UUID.Nil 2 3,
          DocumentCall.IncrementVersion UUID.Nil 4, DocumentCall.SoftDelete 5,
          DocumentCall.IncrementVersion UUID.NameSpaceOID 6]).Version = 3 ∧
      ((NewDocument 0 UUID.Nil "t" "hello" UUID.Nil).calls
        [DocumentCall.IncrementVersion UUID.NameSpaceOID 1, DocumentCall.MakePublic UUID.Nil 2 3,
          DocumentCall.IncrementVersion UUID.Nil 4, DocumentCall.SoftDelete 5,
          DocumentCall.IncrementVersion UUID.NameSpaceOID 6]).LastEditedBy =
        UUID.NameSpaceOID :=
  ⟨(version_counts_increments 0 UUID.Nil UUID.Nil "t" "hello"
      [DocumentCall.IncrementVersion UUID.NameSpaceOID 1, DocumentCall.MakePublic UUID.Nil 2 3,
        DocumentCall.IncrementVersion UUID.Nil 4, DocumentCall.SoftDelete 5,
        DocumentCall.IncrementVersion UUID.NameSpaceOID 6]).2.2.1 (by decide),
    (version_counts_increments 0 UUID.Nil UUID.Nil "t" "hello"
      [DocumentCall.IncrementVersion UUID.NameSpaceOID 1, DocumentCall.MakePublic UUID.Nil 2 3,
        DocumentCall.IncrementVersion UUID.Nil 4, DocumentCall.SoftDelete 5,
        DocumentCall.IncrementVersion UUID.NameSpaceOID 6]).2.2.2.1
      UUID.NameSpaceOID rfl⟩

/-- C8, as the code has it: on a document whose version is non-negative and below the
largest Go `int`, `IncrementVersion` adds one to the version, which is then strictly
greater than before and non-negative; on every document, whatever its version,
`GenerateShareToken`, `SoftDelete`, `MakePublic`, `MakePrivate` and `IsDeleted` keep the
version. -/
theorem incrementVersion_increases_below_max (d : Document) (editorID id : UUID)
    (now now1 now2 : Time) :
    (0 ≤ d.Version → d.Version < maxInt →
      ((d.IncrementVersion editorID now).Version = d.Version + 1 ∧
        d.Version < (d.IncrementVersion editorID now).Version ∧
        0 ≤ (d.IncrementVersion editorID now).Version ∧
        (d.IncrementVersion editorID now).Version ≤ maxInt)) ∧
    (d.GenerateShareToken id now).Version = d.Version ∧
    (d.SoftDelete now).Version = d.Version ∧
    (d.MakePublic id now1 now2).Version = d.Version ∧
    (d.MakePrivate now).Version = d.Version ∧
    d.call DocumentCall.IsDeleted = d := by
  have hpub : (d.MakePublic id now1 now2).Version = d.Version := by
    simp only [Document.MakePublic, Document.GenerateShareToken]
    split <;> rfl
  refine ⟨?_, rfl, rfl, hpub, rfl, rfl⟩
  intro h0 hmax
  have hinc : (d.IncrementVersion editorID now).Version = d.Version + 1 := by
    unfold maxInt at hmax
    simp only [Document.IncrementVersion, wrapInt]
    omega
  refine ⟨hinc, ?_, ?_, ?_⟩
  · rw [hinc]; omega
  · rw [hinc]; omega
  · rw [hinc]; unfold maxInt at hmax ⊢; omega

theorem incrementVersion_increases_below_max_witness :
    ((NewDocument 0 UUID.Nil "t" "hello" UUID.Nil).IncrementVersion UUID.Nil 1).Version = 1 ∧
      (NewDocument 0 UUID.Nil "t" "hello" UUID.Nil).Version <
        ((NewDocument 0 UUID.Nil "t" "hello" UUID.Nil).IncrementVersion UUID.Nil 1).Version ∧
      (documentAtMaxVersion.SoftDelete 1).Version = documentAtMaxVersion.Version ∧
      (documentAtMaxVersion.MakePublic UUID.Nil 1 2).Version = documentAtMaxVersion.Version :=
  ⟨((incrementVersion_increases_below_max (NewDocument 0 UUID.Nil "t" "hello" UUID.Nil)
      UUID.Nil UUID.Nil 1 2 3).1 (by decide) (by decide)).1,
    ((incrementVersion_increases_below_max (NewDocument 0 UUID.Nil "t" "hello" UUID.Nil)
      UUID.Nil UUID.Nil 1 2 3).1 (by decide) (by decide)).2.1,
    (incrementVersion_increases_below_max documentAtMaxVersion UUID.Nil UUID.Nil 1 1 2).2.2.1,
    (incrementVersion_increases_below_max documentAtMaxVersion UUID.Nil UUID.Nil 1 1
      2).2.2.2.1⟩

/-- C8 fails as stated: on a document whose version is the largest Go `int`,
`IncrementVersion` wraps the version around to the smallest Go `int`, which is negative
and smaller than before. -/
theorem incrementVersion_wraps_at_max :
    0 ≤ documentAtMaxVersion.Version ∧
      documentAtMaxVersion.Version = maxInt ∧
      (documentAtMaxVersion.IncrementVersion UUID.Nil 1).Version = minInt ∧
      ¬ (documentAtMaxVersion.Version <
        (documentAtMaxVersion.IncrementVersion UUID.Nil 1).Version) ∧
      ¬ (0 ≤ (documentAtMaxVersion.IncrementVersion UUID.Nil 1).Version) := by
  decide

/-! ## Soft deletion and sharing -/

/-- C11: `NewDocument` returns a document that is not deleted; after `SoftDelete` the
document is deleted and its content, version, title, id, owner, last editor, tags,
visibility, share token (and creation instant) are unchanged, only `DeletedAt` and
`UpdatedAt` being assigned; `IsDeleted` is true exactly when `DeletedAt` is set. -/
theorem softDelete_marks_and_keeps_content (d : Document) (now now0 : Time) (id ownerID : UUID)
    (title content : String) :
    (NewDocument now0 id title content ownerID).IsDeleted = false ∧
    (d.SoftDelete now).IsDeleted = true ∧
    (d.SoftDelete now).Content = d.Content ∧
    (d.SoftDelete now).Version = d.Version ∧
    (d.SoftDelete now).Title = d.Title ∧
    (d.SoftDelete now).ID = d.ID ∧
    (d.SoftDelete now).OwnerID = d.OwnerID ∧
    (d.SoftDelete now).LastEditedBy = d.LastEditedBy ∧
    (d.SoftDelete now).Tags = d.Tags ∧
    (d.SoftDelete now).IsPublic = d.IsPublic ∧
    (d.SoftDelete now).ShareToken = d.ShareToken ∧
    (d.SoftDelete now).CreatedAt = d.CreatedAt ∧
    d.SoftDelete now = { d with DeletedAt := some now, UpdatedAt := now } ∧
    (d.IsDeleted = true ↔ ∃ t, d.DeletedAt = some t) ∧
    (d.IsDeleted = false ↔ d.DeletedAt = none) := by
  refine ⟨rfl, rfl, rfl, rfl, rfl, rfl, rfl, rfl, rfl, rfl, rfl, rfl, rfl, ?_, ?_⟩
  · cases h : d.DeletedAt <;> simp [Document.IsDeleted, h]
  · cases h : d.DeletedAt <;> simp [Document.IsDeleted, h]

/-- Every method keeps a set deletion mark set. -/
theorem Document.call_isDeleted (d : Document) (c : DocumentCall) (h : d.IsDeleted = true) :
    (d.call c).IsDeleted = true := by
  cases c with
  | MakePublic id t1 t2 =>
    simp only [Document.call, Document.MakePublic, Document.GenerateShareToken,
      Document.IsDeleted] at h ⊢
    split <;> exact h
  | SoftDelete t => rfl
  | GenerateShareToken id t => exact h
  | IncrementVersion e t => exact h
  | IsDeleted => exact h
  | MakePrivate t => exact h

/-- C18: a document that is deleted is still deleted after any sequence of calls of the
`Document` methods (`GenerateShareToken`, `IncrementVersion`, `SoftDelete`, `MakePublic`,
`MakePrivate`, and the read-only `IsDeleted`): no method clears `DeletedAt`. -/
theorem deletion_is_permanent (d : Document) (cs : List DocumentCall)
    (h : d.IsDeleted = true) : (d.calls cs).IsDeleted = true := by
  induction cs generalizing d with
  | nil => exact h
  | cons c cs ih =>
    rw [Document.calls_first]
    exact ih (d.call c) (Document.call_isDeleted d c h)

theorem deletion_is_permanent_witness :
    deletedDocument.IsDeleted = true ∧
      (deletedDocument.calls
        [DocumentCall.MakePublic UUID.Nil 6 7, DocumentCall.IncrementVersion UUID.Nil 8,
          DocumentCall.MakePrivate 9, DocumentCall.GenerateShareToken UUID.NameSpaceOID 10,
          DocumentCall.SoftDelete 11]).IsDeleted = true :=
  ⟨rfl, deletion_is_permanent deletedDocument _ rfl⟩

/-- The text of an identifier is never the empty string. -/
theorem UUID.string_ne_empty (u : UUID) : u.String ≠ "" := by
  intro h
  have hd := congrArg String.data h
  simp [UUID.String] at hd

/-- The share token after `MakePublic`: the old one when there is one, a fresh one
otherwise. -/
theorem Document.makePublic_shareToken (d : Document) (id : UUID) (now1 now2 : Time) :
    (d.MakePublic id now1 now2).ShareToken =
      if d.ShareToken = "" then id.String else d.ShareToken := by
  simp only [Document.MakePublic, Document.GenerateShareToken]
  by_cases h : d.ShareToken = "" <;> simp [h]

/-- C19: after `MakePublic` the document is public and its share token is not empty; a
share token that was not empty is kept by `MakePublic`; `MakePrivate` makes the document
private and keeps the share token, so `MakePublic`, `MakePrivate`, `MakePublic` ends with
the token of the first `MakePublic`; neither method changes the content or the version. -/
theorem share_token_handling (d : Document) (id id2 : UUID) (now1 now2 now3 now4 now5 : Time) :
    (d.MakePublic id now1 now2).IsPublic = true ∧
    (d.MakePublic id now1 now2).ShareToken ≠ "" ∧
    (d.ShareToken ≠ "" → (d.MakePublic id now1 now2).ShareToken = d.ShareToken) ∧
    (d.MakePrivate now3).IsPublic = false ∧
    (d.MakePrivate now3).ShareToken = d.ShareToken ∧
    ((((d.MakePublic id now1 now2).MakePrivate now3).MakePublic id2 now4 now5).ShareToken =
      (d.MakePublic id now1 now2).ShareToken) ∧
    ((((d.MakePublic id now1 now2).MakePrivate now3).MakePublic id2 now4 now5).IsPublic =
      true) ∧
    (d.MakePublic id now1 now2).Content = d.Content ∧
    (d.MakePublic id now1 now2).Version = d.Version ∧
    (d.MakePrivate now3).Content = d.Content ∧
    (d.MakePrivate now3).Version = d.Version := by
  have hpub : ∀ (x : Document) (i : UUID) (t1 t2 : Time),
      (x.MakePublic i t1 t2).IsPublic = true ∧ (x.MakePublic i t1 t2).Content = x.Content ∧
        (x.MakePublic i t1 t2).Version = x.Version := by
    intro x i t1 t2
    simp only [Document.MakePublic, Document.GenerateShareToken]
    split <;> exact ⟨rfl, rfl, rfl⟩
  have hne : (d.MakePublic id now1 now2).ShareToken ≠ "" := by
    rw [Document.makePublic_shareToken]
    by_cases h : d.ShareToken = ""
    · rw [if_pos h]; exact UUID.string_ne_empty id
    · rw [if_neg h]; exact h
  refine ⟨(hpub d id now1 now2).1, hne, ?_, rfl, rfl, ?_, (hpub _ id2 now4 now5).1,
    (hpub d id now1 now2).2.1, (hpub d id now1 now2).2.2, rfl, rfl⟩
  · intro h
    rw [Document.makePublic_shareToken, if_neg h]
  · rw [Document.makePublic_shareToken]
    have hkeep : ((d.MakePublic id now1 now2).MakePrivate now3).ShareToken =
        (d.MakePublic id now1 now2).ShareToken := rfl
    rw [hkeep, if_neg hne]

theorem share_token_handling_witness :
    ((NewDocument 0 UUID.Nil "t" "hello" UUID.Nil).MakePublic UUID.NameSpaceOID 1 2).ShareToken =
        "6ba7b812-9dad-11d1-80b4-00c04fd430c8" ∧
      ((((NewDocument 0 UUID.Nil "t" "hello" UUID.Nil).MakePublic UUID.NameSpaceOID 1
        2).MakePrivate 3).MakePublic UUID.Nil 4 5).ShareToken =
        ((NewDocument 0 UUID.Nil "t" "hello" UUID.Nil).MakePublic UUID.NameSpaceOID 1
          2).ShareToken :=
  ⟨by decide,
    (share_token_handling (NewDocument 0 UUID.Nil "t" "hello" UUID.Nil) UUID.NameSpaceOID
      UUID.Nil 1 2 3 4 5).2.2.2.2.2.1⟩

/-! ## Levels of permissions -/

theorem Permission.calls_start (p : Models.Permission) : p.calls [] = p := rfl

theorem Permission.calls_next (p : Models.Permission) (c : PermissionCall)
    (cs : List PermissionCall) : p.calls (c :: cs) = (p.call c).calls cs := rfl

/-- No method changes the document, the user or the grantor of a permission. -/
theorem Permission.call_subject (p : Models.Permission) (c : PermissionCall) :
    (p.call c).DocumentID = p.DocumentID ∧ (p.call c).UserID = p.UserID ∧
      (p.call c).GrantedBy = p.GrantedBy := by
  cases c <;> exact ⟨rfl, rfl, rfl⟩

theorem Permission.calls_subject (cs : List PermissionCall) (p : Models.Permission) :
    (p.calls cs).DocumentID = p.DocumentID ∧ (p.calls cs).UserID = p.UserID ∧
      (p.calls cs).GrantedBy = p.GrantedBy := by
  induction cs generalizing p with
  | nil => exact ⟨rfl, rfl, rfl⟩
  | cons c cs ih =>
    rw [Permission.calls_next]
    obtain ⟨h1, h2, h3⟩ := ih (p.call c)
    obtain ⟨g1, g2, g3⟩ := Permission.call_subject p c
    exact ⟨h1.trans g1, h2.trans g2, h3.trans g3⟩

/-- The level after a sequence of calls: the argument of the last `Upgrade` or `Downgrade`
call, or the level before when there is no such call. -/
theorem Permission.calls_level (cs : List PermissionCall) (p : Models.Permission) :
    (p.calls cs).Permission = (levels cs).getLast?.getD p.Permission := by
  induction cs generalizing p with
  | nil => rfl
  | cons c cs ih =>
    rw [Permission.calls_next, ih]
    cases c with
    | Upgrade l t =>
      have hl : levels (PermissionCall.Upgrade l t :: cs) = l :: levels cs := by
        simp [levels, levelOf, List.filterMap_cons]
      rw [hl, List.getLast?_cons]
      rfl
    | Downgrade l t =>
      have hl : levels (PermissionCall.Downgrade l t :: cs) = l :: levels cs := by
        simp [levels, levelOf, List.filterMap_cons]
      rw [hl, List.getLast?_cons]
      rfl
    | SetExpiration e t => simp [levels, levelOf, List.filterMap_cons]; rfl
    | IsExpired t => simp [levels, levelOf, List.filterMap_cons]; rfl
    | CanView t => simp [levels, levelOf, List.filterMap_cons]; rfl
    | CanEdit t => simp [levels, levelOf, List.filterMap_cons]; rfl
    | CanAdmin t => simp [levels, levelOf, List.filterMap_cons]; rfl

/-- C15: `NewPermission` stores the level it is given, with no expiration; `SetExpiration`
keeps the level, the document, the user and the grantor; `IsExpired`, `CanView`, `CanEdit`
and `CanAdmin` keep the whole record; so after any sequence of method calls the level is
the argument of the last `Upgrade` or `Downgrade` call, and the level before when the
sequence has no such call: the level changes through `Upgrade` and `Downgrade` only. -/
theorem level_changes_only_through_upgrade_downgrade (p : Models.Permission)
    (now expiresAt : Time) (id documentID userID grantedBy : UUID) (level : PermissionLevel)
    (cs : List PermissionCall) :
    (NewPermission now id documentID userID grantedBy level).Permission = level ∧
    (NewPermission now id documentID userID grantedBy level).ExpiresAt = none ∧
    ((p.SetExpiration expiresAt now).Permission = p.Permission ∧
      (p.SetExpiration expiresAt now).DocumentID = p.DocumentID ∧
      (p.SetExpiration expiresAt now).UserID = p.UserID ∧
      (p.SetExpiration expiresAt now).GrantedBy = p.GrantedBy) ∧
    (p.call (PermissionCall.IsExpired now) = p ∧ p.call (PermissionCall.CanView now) = p ∧
      p.call (PermissionCall.CanEdit now) = p ∧ p.call (PermissionCall.CanAdmin now) = p) ∧
    (p.calls cs).Permission = (levels cs).getLast?.getD p.Permission ∧
    (levels cs = [] → (p.calls cs).Permission = p.Permission) ∧
    ((p.calls cs).DocumentID = p.DocumentID ∧ (p.calls cs).UserID = p.UserID ∧
      (p.calls cs).GrantedBy = p.GrantedBy) := by
  refine ⟨rfl, rfl, ⟨rfl, rfl, rfl, rfl⟩, ⟨rfl, rfl, rfl, rfl⟩, Permission.calls_level cs p, ?_,
    Permission.calls_subject cs p⟩
  intro h
  rw [Permission.calls_level, h]
  rfl

theorem level_changes_only_through_upgrade_downgrade_witness :
    (freshViewPermission.calls
        [PermissionCall.SetExpiration 10 1, PermissionCall.CanAdmin 2, PermissionCall.CanEdit 3,
          PermissionCall.IsExpired 11, PermissionCall.CanView 12]).Permission =
      PermissionView :=
  (level_changes_only_through_upgrade_downgrade freshViewPermission 0 0 UUID.Nil UUID.Nil
    UUID.Nil UUID.Nil PermissionView
    [PermissionCall.SetExpiration 10 1, PermissionCall.CanAdmin 2, PermissionCall.CanEdit 3,
      PermissionCall.IsExpired 11, PermissionCall.CanView 12]).2.2.2.2.2.1 rfl

/-- C16 fails on the code: `Upgrade` and `Downgrade` assign whatever level they are given.
On an unexpired `ADMIN` permission `Upgrade(VIEW)` takes `CanEdit` and `CanAdmin` from
true to false; on an unexpired `VIEW` permission `Downgrade(ADMIN)` takes `CanEdit` and
`CanAdmin` from false to true. -/
theorem upgrade_revokes_and_downgrade_grants :
    (PermissionLevel.IsValid freshAdminPermission.Permission = true ∧
      PermissionLevel.IsValid PermissionView = true ∧
      freshAdminPermission.IsExpired 1 = false ∧
      freshAdminPermission.CanEdit 1 = true ∧ freshAdminPermission.CanAdmin 1 = true ∧
      (freshAdminPermission.Upgrade PermissionView 1).CanEdit 1 = false ∧
      (freshAdminPermission.Upgrade PermissionView 1).CanAdmin 1 = false) ∧
    (PermissionLevel.IsValid freshViewPermission.Permission = true ∧
      PermissionLevel.IsValid PermissionAdmin = true ∧
      freshViewPermission.IsExpired 1 = false ∧
      freshViewPermission.CanEdit 1 = false ∧ freshViewPermission.CanAdmin 1 = false ∧
      (freshViewPermission.Downgrade PermissionAdmin 1).CanEdit 1 = true ∧
      (freshViewPermission.Downgrade PermissionAdmin 1).CanAdmin 1 = true) := by
  decide

/-- C17: `CanView` is true exactly when the permission is not expired and its level
satisfies `IsValid`, that is, is `VIEW`, `EDIT` or `ADMIN`; a permission with any other
level string, the empty string included, has `CanView`, `CanEdit` and `CanAdmin` false. -/
theorem canView_iff_unexpired_valid_level (p : Models.Permission) (now : Time) :
    (p.CanView now = true ↔
      (p.IsExpired now = false ∧ PermissionLevel.IsValid p.Permission = true)) ∧
    (PermissionLevel.IsValid p.Permission = true ↔
      (p.Permission = "VIEW" ∨ p.Permission = "EDIT" ∨ p.Permission = "ADMIN")) ∧
    (PermissionLevel.IsValid p.Permission = false →
      p.CanView now = false ∧ p.CanEdit now = false ∧ p.CanAdmin now = false) ∧
    PermissionLevel.IsValid "" = false := by
  refine ⟨?_, ?_, ?_, by decide⟩
  · simp [Permission.CanView, PermissionLevel.IsValid]
  · simp [PermissionLevel.IsValid, PermissionView, PermissionEdit, PermissionAdmin, or_assoc]
  · intro h
    simp only [PermissionLevel.IsValid, Bool.or_eq_false_iff] at h
    obtain ⟨⟨hv, he⟩, ha⟩ := h
    simp [Permission.CanView, Permission.CanEdit, Permission.CanAdmin, hv, he, ha]

theorem canView_iff_unexpired_valid_level_witness :
    (freshViewPermission.Upgrade "" 1).CanView 2 = false ∧
      (freshViewPermission.Upgrade "" 1).CanEdit 2 = false ∧
      (freshViewPermission.Upgrade "" 1).CanAdmin 2 = false ∧
      (freshViewPermission.Upgrade "view" 1).CanView 2 = false ∧
      freshViewPermission.CanView 2 = true :=
  ⟨((canView_iff_unexpired_valid_level (freshViewPermission.Upgrade "" 1) 2).2.2.1
      (by decide)).1,
    ((canView_iff_unexpired_valid_level (freshViewPermission.Upgrade "" 1) 2).2.2.1
      (by decide)).2.1,
    ((canView_iff_unexpired_valid_level (freshViewPermission.Upgrade "" 1) 2).2.2.1
      (by decide)).2.2,
    ((canView_iff_unexpired_valid_level (freshViewPermission.Upgrade "view" 1) 2).2.2.1
      (by decide)).1,
    (canView_iff_unexpired_valid_level freshViewPermission 2).1.mpr ⟨by decide, by decide⟩⟩

/-! ## Properties of sessions -/

/-- `time.Since` within the range of a `time.Duration` is the difference of the instants. -/
theorem since_of_mem_range (t now : Time) (hlo : minInt ≤ now - t) (hhi : now - t ≤ maxInt) :
    Since t now = now - t := by
  unfold Since
  rw [min_eq_right hhi, max_eq_right hlo]

/-- `time.Since` is a `time.Duration`. -/
theorem since_mem_range (t now : Time) : minInt ≤ Since t now ∧ Since t now ≤ maxInt := by
  unfold Since
  refine ⟨le_max_left _ _, max_le (by decide) (min_le_left _ _)⟩

/-- A timeout below the largest duration is below the saturated difference exactly when it
is below the difference. -/
theorem lt_since_iff (t now : Time) (timeout : Duration) (hlo : minInt ≤ timeout)
    (hhi : timeout < maxInt) : timeout < Since t now ↔ timeout < now - t := by
  unfold Since
  rw [lt_max_iff, lt_min_iff]
  constructor
  · rintro (h | ⟨_, h⟩)
    · exact absurd hlo (not_le.mpr h)
    · exact h
  · intro h
    exact Or.inr ⟨hhi, h⟩

/-- C12, as the code has it: for a timeout below the largest `time.Duration`,
`IsExpired(timeout)` is true exactly when the time elapsed since `LastActivity` is
strictly greater than the timeout, so a session idle for 301 seconds is expired under a
300-second timeout and one idle for exactly 300 seconds is not; under the largest
`time.Duration` as timeout no session is expired, because `time.Since` saturates. -/
theorem session_expired_iff_idle_longer (s : Session) (timeout : Duration) (now : Time)
    (hlo : minInt ≤ timeout) :
    (timeout < maxInt → (s.IsExpired timeout now = true ↔ timeout < now - s.LastActivity)) ∧
    (timeout = maxInt → s.IsExpired timeout now = false) ∧
    (now - s.LastActivity = 301 * Second → s.IsExpired (300 * Second) now = true) ∧
    (now - s.LastActivity = 300 * Second → s.IsExpired (300 * Second) now = false) := by
  refine ⟨?_, ?_, ?_, ?_⟩
  · intro hlt
    simp only [Session.IsExpired, decide_eq_true_eq]
    exact lt_since_iff _ _ _ hlo hlt
  · intro heq
    simp only [Session.IsExpired, decide_eq_false_iff_not, not_lt, heq]
    exact (since_mem_range _ _).2
  · intro h
    simp only [Session.IsExpired, decide_eq_true_eq]
    rw [lt_since_iff _ _ _ (by decide) (by decide), h]
    decide
  · intro h
    simp only [Session.IsExpired, decide_eq_false_iff_not]
    rw [lt_since_iff _ _ _ (by decide) (by decide), h]
    decide

theorem session_expired_iff_idle_longer_witness :
    sessionAtZero.IsExpired (300 * Second) (301 * Second) = true ∧
      sessionAtZero.IsExpired (300 * Second) (300 * Second) = false :=
  ⟨(session_expired_iff_idle_longer sessionAtZero (300 * Second) (301 * Second)
      (by decide)).2.2.1 (by decide),
    (session_expired_iff_idle_longer sessionAtZero (300 * Second) (300 * Second)
      (by decide)).2.2.2 (by decide)⟩

/-- C12 fails as stated: with the largest `time.Duration` as timeout, a session whose last
activity is `10^19` nanoseconds old (more than the timeout) is not expired. -/
theorem session_not_expired_under_largest_timeout :
    NewSession 0 UUID.Nil UUID.Nil UUID.Nil "conn" = some sessionAtZero ∧
      maxInt < 10000000000000000000 - sessionAtZero.LastActivity ∧
      sessionAtZero.IsExpired maxInt 10000000000000000000 = false := by
  decide

/-- C13: `generateUserColor` returns the entry of the ten-colour palette at the first byte
of the user id modulo ten; that index is within the palette, so the call never panics; and
two sessions `NewSession` creates for one user carry that colour, whatever their document,
connection id, session id and creation instant. -/
theorem user_color_depends_on_user_only (userID id1 id2 documentID1 documentID2 : UUID)
    (now1 now2 : Time) (connectionID1 connectionID2 : String) :
    colors.length = 10 ∧
    (∃ h : (userID.byte 0).val % 10 < colors.length,
      generateUserColor userID = some (colors.get ⟨(userID.byte 0).val % 10, h⟩)) ∧
    (∃ s1 s2 : Session,
      NewSession now1 id1 userID documentID1 connectionID1 = some s1 ∧
      NewSession now2 id2 userID documentID2 connectionID2 = some s2 ∧
      s1.Color = s2.Color ∧ generateUserColor userID = some s1.Color) := by
  have hlt : (userID.byte 0).val % 10 < colors.length := by
    have : colors.length = 10 := rfl
    omega
  have hcol : generateUserColor userID = some (colors.get ⟨(userID.byte 0).val % 10, hlt⟩) := by
    unfold generateUserColor
    have hlen : colors.length = 10 := rfl
    simp only [hlen]
    exact List.getElem?_eq_getElem hlt
  refine ⟨rfl, ⟨hlt, hcol⟩, ?_⟩
  simp only [NewSession, hcol, Option.map_some']
  exact ⟨_, _, rfl, rfl, rfl, rfl⟩

theorem Session.calls_nothing (s : Session) : s.calls [] = s := rfl

theorem Session.calls_head (s : Session) (c : SessionCall) (cs : List SessionCall) :
    s.calls (c :: cs) = (s.call c).calls cs := rfl

/-- No method changes the identity, the user, the document, the connection or the colour
of a session. -/
theorem Session.call_identity (s : Session) (c : SessionCall) :
    (s.call c).ID = s.ID ∧ (s.call c).UserID = s.UserID ∧
      (s.call c).DocumentID = s.DocumentID ∧ (s.call c).ConnectionID = s.ConnectionID ∧
      (s.call c).Color = s.Color := by
  cases c <;> exact ⟨rfl, rfl, rfl, rfl, rfl⟩

/-- The cursor after a sequence of calls: the argument of the last `UpdateCursor` call, or
the cursor before when there is no such call. -/
theorem Session.calls_cursor (cs : List SessionCall) (s : Session) :
    (s.calls cs).CursorPosition = (cursors cs).getLast?.getD s.CursorPosition := by
  induction cs generalizing s with
  | nil => rfl
  | cons c cs ih =>
    rw [Session.calls_head, ih]
    cases c with
    | UpdateCursor position t =>
      have hc : cursors (SessionCall.UpdateCursor position t :: cs) = position :: cursors cs := by
        simp [cursors, cursorOf, List.filterMap_cons]
      rw [hc, List.getLast?_cons]
      rfl
    | UpdateSelection a b t => simp [cursors, cursorOf, List.filterMap_cons]; rfl
    | UpdateActivity t => simp [cursors, cursorOf, List.filterMap_cons]; rfl
    | Deactivate t => simp [cursors, cursorOf, List.filterMap_cons]; rfl
    | IsExpired d t => simp [cursors, cursorOf, List.filterMap_cons]; rfl

/-- The selection after a sequence of calls: the arguments of the last `UpdateSelection`
call, or the selection before when there is no such call. -/
theorem Session.calls_selection (cs : List SessionCall) (s : Session) :
    ((s.calls cs).SelectionStart, (s.calls cs).SelectionEnd) =
      (selections cs).getLast?.getD (s.SelectionStart, s.SelectionEnd) := by
  induction cs generalizing s with
  | nil => rfl
  | cons c cs ih =>
    rw [Session.calls_head, ih]
    cases c with
    | UpdateSelection a b t =>
      have hc : selections (SessionCall.UpdateSelection a b t :: cs) =
          (a, b) :: selections cs := by
        simp [selections, selectionOf, List.filterMap_cons]
      rw [hc, List.getLast?_cons]
      rfl
    | UpdateCursor position t => simp [selections, selectionOf, List.filterMap_cons]; rfl
    | UpdateActivity t => simp [selections, selectionOf, List.filterMap_cons]; rfl
    | Deactivate t => simp [selections, selectionOf, List.filterMap_cons]; rfl
    | IsExpired d t => simp [selections, selectionOf, List.filterMap_cons]; rfl

/-- A session `NewSession` returns starts with cursor and selection at zero, active. -/
theorem NewSession_initial (now : Time) (id userID documentID : UUID) (connectionID : String)
    (s : Session) (h : NewSession now id userID documentID connectionID = some s) :
    s.CursorPosition = 0 ∧ s.SelectionStart = 0 ∧ s.SelectionEnd = 0 ∧ s.IsActive = true := by
  unfold NewSession at h
  cases hc : generateUserColor userID with
  | none => simp [hc] at h
  | some color =>
    simp only [hc, Option.map_some', Option.some.injEq] at h
    subst h
    exact ⟨rfl, rfl, rfl, rfl⟩

/-- C14: after any sequence of method calls on a session `NewSession` returned, the cursor
is the argument of the last `UpdateCursor` call (`0` when there is none) and the selection
is the pair of arguments of the last `UpdateSelection` call (`(0, 0)` when there is none);
`UpdateCursor` keeps the selection, `UpdateSelection` keeps the cursor, and neither changes
the id, the user, the document, the connection, the colour or the active flag. -/
theorem cursor_selection_last_writer_wins (now : Time) (id userID documentID : UUID)
    (connectionID : String) (s0 : Session)
    (hnew : NewSession now id userID documentID connectionID = some s0)
    (cs : List SessionCall) (s : Session) (position start stop : Int) (t : Time) :
    (s0.calls cs).CursorPosition = (cursors cs).getLast?.getD 0 ∧
    ((s0.calls cs).SelectionStart, (s0.calls cs).SelectionEnd) =
      (selections cs).getLast?.getD (0, 0) ∧
    s.UpdateCursor position t =
      { s with CursorPosition := position, LastActivity := t } ∧
    ((s.UpdateCursor position t).CursorPosition = position ∧
      (s.UpdateCursor position t).SelectionStart = s.SelectionStart ∧
      (s.UpdateCursor position t).SelectionEnd = s.SelectionEnd ∧
      (s.UpdateCursor position t).ID = s.ID ∧
      (s.UpdateCursor position t).UserID = s.UserID ∧
      (s.UpdateCursor position t).DocumentID = s.DocumentID ∧
      (s.UpdateCursor position t).ConnectionID = s.ConnectionID ∧
      (s.UpdateCursor position t).Color = s.Color ∧
      (s.UpdateCursor position t).IsActive = s.IsActive) ∧
    ((s.UpdateSelection start stop t).SelectionStart = start ∧
      (s.UpdateSelection start stop t).SelectionEnd = stop ∧
      (s.UpdateSelection start stop t).CursorPosition = s.CursorPosition ∧
      (s.UpdateSelection start stop t).ID = s.ID ∧
      (s.UpdateSelection start stop t).UserID = s.UserID ∧
      (s.UpdateSelection start stop t).DocumentID = s.DocumentID ∧
      (s.UpdateSelection start stop t).ConnectionID = s.ConnectionID ∧
      (s.UpdateSelection start stop t).Color = s.Color ∧
      (s.UpdateSelection start stop t).IsActive = s.IsActive) := by
  obtain ⟨h1, h2, h3, _⟩ := NewSession_initial now id userID documentID connectionID s0 hnew
  refine ⟨?_, ?_, rfl, ⟨rfl, rfl, rfl, rfl, rfl, rfl, rfl, rfl, rfl⟩,
    ⟨rfl, rfl, rfl, rfl, rfl, rfl, rfl, rfl, rfl⟩⟩
  · rw [Session.calls_cursor, h1]
  · rw [Session.calls_selection, h2, h3]

theorem cursor_selection_last_writer_wins_witness :
    (sessionAtZero.calls
        [SessionCall.UpdateCursor 4 1, SessionCall.UpdateSelection 2 9 2,
          SessionCall.UpdateCursor 7 3, SessionCall.UpdateSelection 3 5 4]).CursorPosition = 7 ∧
      ((sessionAtZero.calls
        [SessionCall.UpdateCursor 4 1, SessionCall.UpdateSelection 2 9 2,
          SessionCall.UpdateCursor 7 3, SessionCall.UpdateSelection 3 5 4]).SelectionStart,
        (sessionAtZero.calls
        [SessionCall.UpdateCursor 4 1, SessionCall.UpdateSelection 2 9 2,
          SessionCall.UpdateCursor 7 3, SessionCall.UpdateSelection 3 5 4]).SelectionEnd) =
        (3, 5) :=
  ⟨(cursor_selection_last_writer_wins 0 UUID.Nil UUID.Nil UUID.Nil "conn" sessionAtZero
      (by decide)
      [SessionCall.UpdateCursor 4 1, SessionCall.UpdateSelection 2 9 2,
        SessionCall.UpdateCursor 7 3, SessionCall.UpdateSelection 3 5 4]
      sessionAtZero 0 0 0 0).1,
    (cursor_selection_last_writer_wins 0 UUID.Nil UUID.Nil UUID.Nil "conn" sessionAtZero
      (by decide)
      [SessionCall.UpdateCursor 4 1, SessionCall.UpdateSelection 2 9 2,
        SessionCall.UpdateCursor 7 3, SessionCall.UpdateSelection 3 5 4]
      sessionAtZero 0 0 0 0).2.1⟩

/-- Every method keeps an inactive session inactive. -/
theorem Session.calls_inactive (cs : List SessionCall) (s : Session)
    (h : s.IsActive = false) : (s.calls cs).IsActive = false := by
  induction cs generalizing s with
  | nil => exact h
  | cons c cs ih =>
    rw [Session.calls_head]
    apply ih
    cases c
    case Deactivate t => rfl
    all_goals exact h

/-- C20: a session `NewSession` returns is active; after `Deactivate` a session is
inactive and stays inactive under any further `UpdateCursor`, `UpdateSelection`,
`UpdateActivity`, `Deactivate` (and `IsExpired`) calls; and `IsExpired(timeout)` read at
the instant of `Deactivate` is false for every timeout `>= 0`, whatever the session was
before, since `Deactivate` sets `LastActivity` to that instant. -/
theorem deactivation_is_permanent (now : Time) (id userID documentID : UUID)
    (connectionID : String) (s0 : Session)
    (hnew : NewSession now id userID documentID connectionID = some s0)
    (s : Session) (t : Time) (cs : List SessionCall) (timeout : Duration)
    (htimeout : 0 ≤ timeout) :
    s0.IsActive = true ∧
    (s.Deactivate t).IsActive = false ∧
    ((s.Deactivate t).calls cs).IsActive = false ∧
    (s.Deactivate t).LastActivity = t ∧
    (s.Deactivate t).IsExpired timeout t = false := by
  refine ⟨(NewSession_initial now id userID documentID connectionID s0 hnew).2.2.2, rfl,
    Session.calls_inactive cs _ rfl, rfl, ?_⟩
  have hs : Since (s.Deactivate t).LastActivity t = 0 := by
    have ht : (s.Deactivate t).LastActivity = t := rfl
    rw [ht, since_of_mem_range t t (by rw [sub_self]; decide) (by rw [sub_self]; decide),
      sub_self]
  simp only [Session.IsExpired, hs, decide_eq_false_iff_not, not_lt]
  exact htimeout

theorem deactivation_is_permanent_witness :
    sessionAtZero.IsExpired (300 * Second) (301 * Second) = true ∧
      (sessionAtZero.Deactivate (301 * Second)).IsExpired (300 * Second) (301 * Second) =
        false ∧
      ((sessionAtZero.Deactivate (301 * Second)).calls
        [SessionCall.UpdateCursor 3 (302 * Second), SessionCall.UpdateActivity (303 * Second),
          SessionCall.UpdateSelection 1 2 (304 * Second)]).IsActive = false :=
  ⟨by decide,
    (deactivation_is_permanent 0 UUID.Nil UUID.Nil UUID.Nil "conn" sessionAtZero (by decide)
      sessionAtZero (301 * Second) [] (300 * Second) (by decide)).2.2.2.2,
    (deactivation_is_permanent 0 UUID.Nil UUID.Nil UUID.Nil "conn" sessionAtZero (by decide)
      sessionAtZero (301 * Second)
      [SessionCall.UpdateCursor 3 (302 * Second), SessionCall.UpdateActivity (303 * Second),
        SessionCall.UpdateSelection 1 2 (304 * Second)] 0 (by decide)).2.2.1⟩

end Models
